import Mathlib

/-!
Shallow embedding of the `girder` repository fragment:

* `src/clients/web/src/models/CollectionModel.js` — a Backbone model whose
  single method `fetch` issues one REST request to `collection/<id>` and,
  on success, writes the response into the model attributes via Backbone
  `set` (a key-by-key merge) and triggers `g:fetched`; on failure it only
  triggers `g:error`.
* the Ansible provisioning playbook (`src/unnamed/part_000` together with
  the role tasks appended to the model file) — apt cache update, the
  `Stouts.mongodb` role, the girder role (apt package install, pinned git
  clone), then `pip girder-client` and three declarative `girder`-module
  calls with `state: present` (admin user, filesystem assetstore,
  gravatar plugin).
-/

/-- JavaScript attribute values as they occur in this model: numbers,
strings, and `undefined` (what Backbone `get` returns for a missing key). -/
inductive JSValue where
  | num : Int → JSValue
  | str : String → JSValue
  | undef : JSValue
deriving DecidableEq, Repr

/-- JavaScript string coercion as used by the `+` in
`'collection/' + this.get('_id')`: numbers print in decimal, strings pass
through, `undefined` coerces to the string `undefined`. -/
def JSValue.toJSString : JSValue → String
  | .num n => toString n
  | .str s => s
  | .undef => "undefined"

/-- A Backbone attribute hash, embedded as an association list from
attribute names to values. -/
abbrev Attrs := List (String × JSValue)

/-- Backbone `model.get(key)`: the value of the first binding of `key`,
`undefined` when the key is absent. -/
def attrsGet : Attrs → String → JSValue
  | [], _ => .undef
  | (k, v) :: rest, key => if k = key then v else attrsGet rest key

/-- Whether the attribute hash binds `key` (JavaScript `key in obj`). -/
def hasKey : Attrs → String → Bool
  | [], _ => false
  | (k, _) :: rest, key => k = key || hasKey rest key

/-- Backbone `set` of a single attribute: overwrite the binding of `k`
when present, otherwise add it. -/
def setOne : Attrs → String → JSValue → Attrs
  | [], k, v => [(k, v)]
  | (k1, v1) :: rest, k, v =>
    if k1 = k then (k1, v) :: rest else (k1, v1) :: setOne rest k v

/-- Backbone `model.set(resp)`: iterate over the keys of the response
object, setting each attribute in turn — a merge into the existing
attributes, not a replacement. -/
def setAll : Attrs → Attrs → Attrs
  | a, [] => a
  | a, (k, v) :: rest => setAll (setOne a k v) rest

/-- The keys of a response object are pairwise distinct (always true of an
actual JavaScript object, where duplicate keys cannot coexist). -/
def keysNodup (r : Attrs) : Prop :=
  (r.map Prod.fst).Nodup

instance (r : Attrs) : Decidable (keysNodup r) := by
  unfold keysNodup; infer_instance

/-- Observable actions of one `fetch` invocation, in program order:
the REST request that is issued, the write of the response into the
attributes, and each triggered Backbone event. -/
inductive FetchAction where
  | request : String → FetchAction
  | setState : Attrs → FetchAction
  | emit : String → FetchAction
deriving DecidableEq, Repr

/-- The client-side model bound to one remote collection resource
(`girder.models.CollectionModel`): a single mutable attribute hash. -/
structure CollectionModel where
  attrs : Attrs
deriving DecidableEq, Repr

/-- How the single underlying request of a `fetch` resolves: the `done`
callback receives the parsed response object; the `error` callback fires
with whatever failure information jQuery supplies, all of which the code
ignores. -/
inductive FetchOutcome where
  | success : Attrs → FetchOutcome
  | failure : JSValue → FetchOutcome
deriving DecidableEq, Repr

/-- The request path built by `fetch`:
`'collection/' + this.get('_id')`. -/
def CollectionModel.fetchPath (m : CollectionModel) : String :=
  "collection/" ++ (attrsGet m.attrs "_id").toJSString

/-- `CollectionModel.fetch`, embedded as a function from the resolution of
its single request to the updated model and the trace of observable
actions. On success the `done` handler runs `this.set(resp)` and then
`this.trigger('g:fetched')`; on failure the `error` handler only runs
`this.trigger('g:error')`, ignoring the failure information. -/
def CollectionModel.fetch (m : CollectionModel) :
    FetchOutcome → CollectionModel × List FetchAction
  | .success resp =>
      (⟨setAll m.attrs resp⟩,
       [FetchAction.request m.fetchPath, FetchAction.setState resp,
        FetchAction.emit "g:fetched"])
  | .failure _ =>
      (m, [FetchAction.request m.fetchPath, FetchAction.emit "g:error"])

/-- The REST requests issued within a trace of actions. -/
def requestsOf (acts : List FetchAction) : List String :=
  acts.filterMap fun a =>
    match a with
    | .request p => some p
    | _ => none

/-- The Backbone events triggered within a trace of actions. -/
def emitsOf (acts : List FetchAction) : List String :=
  acts.filterMap fun a =>
    match a with
    | .emit e => some e
    | _ => none

/-- Scans a trace and checks that every `g:fetched` event is preceded by a
write of a response into the attributes; the accumulator records whether a
`setState` has occurred so far. -/
def fetchedAfterWrite : List FetchAction → Bool → Bool
  | [], _ => true
  | FetchAction.setState _ :: rest, _ => fetchedAfterWrite rest true
  | FetchAction.emit e :: rest, written =>
      if e = "g:fetched" then written && fetchedAfterWrite rest written
      else fetchedAfterWrite rest written
  | FetchAction.request _ :: rest, written => fetchedAfterWrite rest written

theorem attrsGet_setOne (a : Attrs) (k : String) (v : JSValue) (key : String) :
    attrsGet (setOne a k v) key = if k = key then v else attrsGet a key := by
  induction a with
  | nil => simp [setOne, attrsGet]
  | cons hd tl ih =>
      obtain ⟨k1, v1⟩ := hd
      by_cases h1 : k1 = k
      · subst h1
        by_cases h2 : k1 = key <;> simp [setOne, attrsGet, h2]
      · by_cases h2 : k1 = key
        · subst h2
          have : ¬ k = k1 := fun h => h1 h.symm
          simp [setOne, attrsGet, h1, this]
        · simp [setOne, attrsGet, h1, h2, ih]

theorem attrsGet_eq_undef_of_hasKey_false (a : Attrs) (key : String)
    (h : hasKey a key = false) : attrsGet a key = .undef := by
  induction a with
  | nil => rfl
  | cons hd tl ih =>
      obtain ⟨k, v⟩ := hd
      simp [hasKey] at h
      simp [attrsGet, h.1, ih h.2]

theorem attrsGet_setAll_of_hasKey_false (r : Attrs) (a : Attrs) (key : String)
    (h : hasKey r key = false) :
    attrsGet (setAll a r) key = attrsGet a key := by
  induction r generalizing a with
  | nil => rfl
  | cons hd tl ih =>
      obtain ⟨k, v⟩ := hd
      simp [hasKey] at h
      rw [setAll, ih _ h.2, attrsGet_setOne, if_neg h.1]

theorem hasKey_iff_mem_keys (a : Attrs) (key : String) :
    hasKey a key = true ↔ key ∈ a.map Prod.fst := by
  induction a with
  | nil => simp [hasKey]
  | cons hd tl ih =>
      obtain ⟨k, v⟩ := hd
      simp only [hasKey, Bool.or_eq_true, decide_eq_true_eq, ih,
        List.map_cons, List.mem_cons]
      exact or_congr eq_comm Iff.rfl

theorem attrsGet_setAll_of_hasKey_true (r : Attrs) (a : Attrs) (key : String)
    (hnd : keysNodup r) (h : hasKey r key = true) :
    attrsGet (setAll a r) key = attrsGet r key := by
  induction r generalizing a with
  | nil => cases h
  | cons hd tl ih =>
      obtain ⟨k, v⟩ := hd
      rw [keysNodup, List.map_cons, List.nodup_cons] at hnd
      by_cases hk : k = key
      · subst hk
        have htl : hasKey tl k = false := by
          by_contra hc
          have := (hasKey_iff_mem_keys tl k).mp (by
            cases hx : hasKey tl k
            · exact absurd hx hc
            · rfl)
          exact hnd.1 this
        rw [setAll, attrsGet_setAll_of_hasKey_false _ _ _ htl,
          attrsGet_setOne, if_pos rfl, attrsGet, if_pos rfl]
      · have htl : hasKey tl key = true := by
          simpa [hasKey, hk] using h
        rw [setAll, ih _ hnd.2 htl, attrsGet, if_neg hk]

/-! Embedding of the provisioning playbook. Template references such as
`girder_path`, `girder_version` and `ansible_user_dir` are embedded as the
variable name itself, since the playbook pins them symbolically. -/

/-- The `state:` field of a declarative `girder`-module task. -/
inductive EnsureState where
  | present
  | absent
deriving DecidableEq, Repr

/-- One task of the provisioning sequence, with the parameters it carries
in the playbook source. -/
inductive PlayStep where
  | aptUpdateCache
  | applyRole (name : String)
  | aptInstall (pkgs : List String)
  | gitClone (repo dest version : String)
  | pipInstall (pkg : String)
  | girderUser (login firstName lastName email : String)
      (admin : Bool) (st : EnsureState)
  | girderAssetstore (name atype root : String)
      (current : Bool) (st : EnsureState)
  | girderPlugins (plugins : List String) (st : EnsureState)
deriving DecidableEq, Repr

/-- The package list of the task `Install Girder system dependencies`. -/
def girderSystemDeps : List String :=
  ["git", "libffi-dev", "build-essential", "python2.7-dev", "python-pip",
   "libjpeg-dev", "libssl-dev", "zlib1g-dev"]

/-- The tasks of the girder role: apt install of the system dependencies,
then the pinned git checkout of the girder source tree. -/
def girderRoleTasks : List PlayStep :=
  [PlayStep.aptInstall girderSystemDeps,
   PlayStep.gitClone "https://github.com/girder/girder.git"
     "girder_path" "girder_version"]

/-- The tasks the playbook runs after the roles: install `girder-client`
with pip, then the three declarative administrative `girder` calls, each
with `state: present`. -/
def postTasks : List PlayStep :=
  [PlayStep.pipInstall "girder-client",
   PlayStep.girderUser "girder" "Girder" "Administrator"
     "girder@girder.girder" true EnsureState.present,
   PlayStep.girderAssetstore "Primary assetstore" "filesystem"
     "ansible_user_dir/assetstore" true EnsureState.present,
   PlayStep.girderPlugins ["gravatar"] EnsureState.present]

/-- The complete ordered provisioning sequence of the playbook: the
pre-task apt cache update, the `Stouts.mongodb` role, the girder role
tasks, then the post tasks. -/
def playbookSteps : List PlayStep :=
  [PlayStep.aptUpdateCache, PlayStep.applyRole "Stouts.mongodb"]
    ++ girderRoleTasks ++ postTasks

/-- Declared state of the provisioned machine and of the running girder
service that the playbook's tasks act on. -/
structure MachineState where
  cacheUpdated : Bool
  rolesApplied : List String
  packages : List String
  checkout : Option (String × String × String)
  pipPackages : List String
  users : List String
  assetstores : List String
  plugins : List String
deriving DecidableEq, Repr

/-- Modelled from the spec: the present-state semantics of the
provisioning tool's declarative modules (the `girder` Ansible module and
the apt/git/pip modules are not part of this repository). A `state:
present` call ensures an item exists and makes no change when it already
does. -/
def ensurePresent (x : String) (xs : List String) : List String :=
  if x ∈ xs then xs else xs ++ [x]

/-- Modelled from the spec: ensuring each item of a list is present, in
order (apt `with_items`, a `girder` plugin list). -/
def ensureAllPresent (items : List String) (xs : List String) : List String :=
  match items with
  | [] => xs
  | i :: rest => ensureAllPresent rest (ensurePresent i xs)

/-- Modelled from the spec: present/absent state semantics of one
declarative item. -/
def applyEnsure : EnsureState → String → List String → List String
  | .present, x, xs => ensurePresent x xs
  | .absent, x, xs => xs.filter (· ≠ x)

/-- Modelled from the spec: the effect of one provisioning task on the
declared machine state, with the present/absent semantics supplied by the
provisioning tool. -/
def applyStep : MachineState → PlayStep → MachineState
  | s, .aptUpdateCache => { s with cacheUpdated := true }
  | s, .applyRole r => { s with rolesApplied := ensurePresent r s.rolesApplied }
  | s, .aptInstall pkgs => { s with packages := ensureAllPresent pkgs s.packages }
  | s, .gitClone repo dest version => { s with checkout := some (repo, dest, version) }
  | s, .pipInstall p => { s with pipPackages := ensurePresent p s.pipPackages }
  | s, .girderUser login _ _ _ _ st =>
      { s with users := applyEnsure st login s.users }
  | s, .girderAssetstore name _ _ _ st =>
      { s with assetstores := applyEnsure st name s.assetstores }
  | s, .girderPlugins ps st =>
      { s with plugins :=
          match st with
          | .present => ensureAllPresent ps s.plugins
          | .absent => s.plugins.filter (· ∉ ps) }

/-- Running a list of provisioning tasks in order from a machine state. -/
def runPlaybook (s : MachineState) (steps : List PlayStep) : MachineState :=
  steps.foldl applyStep s

theorem mem_ensurePresent_self (x : String) (xs : List String) :
    x ∈ ensurePresent x xs := by
  unfold ensurePresent
  split
  · assumption
  · exact List.mem_append_right _ (List.mem_singleton.mpr rfl)

theorem ensurePresent_of_mem (x : String) (xs : List String) (h : x ∈ xs) :
    ensurePresent x xs = xs := by
  unfold ensurePresent
  exact if_pos h

theorem ensurePresent_idem (x : String) (xs : List String) :
    ensurePresent x (ensurePresent x xs) = ensurePresent x xs :=
  ensurePresent_of_mem x _ (mem_ensurePresent_self x xs)

theorem mem_ensurePresent_of_mem (x y : String) (xs : List String)
    (h : x ∈ xs) : x ∈ ensurePresent y xs := by
  unfold ensurePresent
  split
  · exact h
  · exact List.mem_append_left _ h

theorem mem_ensureAllPresent_of_mem (l : List String) (x : String)
    (xs : List String) (h : x ∈ xs) : x ∈ ensureAllPresent l xs := by
  induction l generalizing xs with
  | nil => exact h
  | cons i rest ih => exact ih _ (mem_ensurePresent_of_mem x i xs h)

theorem mem_ensureAllPresent_self (l : List String) (x : String)
    (xs : List String) (h : x ∈ l) : x ∈ ensureAllPresent l xs := by
  induction l generalizing xs with
  | nil => cases h
  | cons i rest ih =>
      rcases List.mem_cons.mp h with h1 | h1
      · subst h1
        exact mem_ensureAllPresent_of_mem rest x _
          (mem_ensurePresent_self x xs)
      · exact ih _ h1

theorem ensureAllPresent_of_subset (l : List String) (xs : List String)
    (h : ∀ x ∈ l, x ∈ xs) : ensureAllPresent l xs = xs := by
  induction l with
  | nil => rfl
  | cons i rest ih =>
      rw [ensureAllPresent, ensurePresent_of_mem i xs (h i (List.mem_cons_self i rest))]
      exact ih fun x hx => h x (List.mem_cons_of_mem i hx)

theorem ensureAllPresent_idem (l : List String) (xs : List String) :
    ensureAllPresent l (ensureAllPresent l xs) = ensureAllPresent l xs :=
  ensureAllPresent_of_subset l _ fun x hx => mem_ensureAllPresent_self l x xs hx

/-! The claims. -/

/-- Claim C1, counterexample: a successful fetch whose response body is
the record with a mapped to 1 and b mapped to 2 does not leave the local
attribute state exactly equal to that record — the prior attribute
binding of the key used to build the request path survives, while the
record itself has no such binding. -/
theorem fetch_success_not_replacement :
    attrsGet ((CollectionModel.mk [("_id", JSValue.str "123")]).fetch
        (FetchOutcome.success [("a", JSValue.num 1), ("b", JSValue.num 2)])).1.attrs
      "_id" = JSValue.str "123"
    ∧ attrsGet [("a", JSValue.num 1), ("b", JSValue.num 2)] "_id" = JSValue.undef := by
  decide

/-- Claim C1 as amended: a successful fetch merges the response into the
local attribute state — every key carried by the response (whose keys are
distinct, as in any JavaScript object) takes the response value, every
other key keeps its prior value — and the model emits `g:fetched`. -/
theorem fetch_success_merges_and_emits (m : CollectionModel) (resp : Attrs)
    (k : String) (h : keysNodup resp) :
    attrsGet (m.fetch (FetchOutcome.success resp)).1.attrs k =
      (if hasKey resp k then attrsGet resp k else attrsGet m.attrs k)
    ∧ emitsOf (m.fetch (FetchOutcome.success resp)).2 = ["g:fetched"] := by
  refine ⟨?_, rfl⟩
  show attrsGet (setAll m.attrs resp) k = _
  by_cases hk : hasKey resp k = true
  · rw [if_pos hk, attrsGet_setAll_of_hasKey_true resp m.attrs k h hk]
  · have hk0 : hasKey resp k = false := by
      cases hx : hasKey resp k
      · rfl
      · exact absurd hx hk
    rw [if_neg (by simp [hk0]), attrsGet_setAll_of_hasKey_false resp m.attrs k hk0]

/-- Claim C1 amended, witness at a concrete model and response. -/
theorem fetch_success_merges_and_emits_witness :
    keysNodup [("a", JSValue.num 1), ("b", JSValue.num 2)]
    ∧ (attrsGet ((CollectionModel.mk [("_id", JSValue.str "123")]).fetch
          (FetchOutcome.success [("a", JSValue.num 1), ("b", JSValue.num 2)])).1.attrs
        "_id" =
        (if hasKey [("a", JSValue.num 1), ("b", JSValue.num 2)] "_id" then
          attrsGet [("a", JSValue.num 1), ("b", JSValue.num 2)] "_id"
        else attrsGet (CollectionModel.mk [("_id", JSValue.str "123")]).attrs "_id")
      ∧ emitsOf ((CollectionModel.mk [("_id", JSValue.str "123")]).fetch
          (FetchOutcome.success [("a", JSValue.num 1), ("b", JSValue.num 2)])).2 =
        ["g:fetched"]) :=
  ⟨by decide,
   fetch_success_merges_and_emits (CollectionModel.mk [("_id", JSValue.str "123")])
     [("a", JSValue.num 1), ("b", JSValue.num 2)] "_id" (by decide)⟩

/-- Claim C2: a failing fetch leaves the local attribute state exactly as
it was before the invocation, and the model emits `g:error`. -/
theorem fetch_error_leaves_state (m : CollectionModel) (e : JSValue) :
    (m.fetch (FetchOutcome.failure e)).1 = m
    ∧ emitsOf (m.fetch (FetchOutcome.failure e)).2 = ["g:error"] :=
  ⟨rfl, rfl⟩

/-- Claim C3: when the `_id` attribute holds the identifier `i`, a fetch
issues exactly one request, whose path is `collection/` concatenated with
`i`, whatever the outcome. -/
theorem fetch_request_path (m : CollectionModel) (o : FetchOutcome) (i : String)
    (h : attrsGet m.attrs "_id" = JSValue.str i) :
    requestsOf (m.fetch o).2 = ["collection/" ++ i] := by
  have hp : m.fetchPath = "collection/" ++ i := by
    rw [CollectionModel.fetchPath, h]
    rfl
  cases o
  · show [m.fetchPath] = _
    rw [hp]
  · show [m.fetchPath] = _
    rw [hp]

/-- Claim C3, witness at a concrete model holding an `_id`. -/
theorem fetch_request_path_witness :
    attrsGet (CollectionModel.mk [("_id", JSValue.str "abc")]).attrs "_id" =
      JSValue.str "abc"
    ∧ requestsOf ((CollectionModel.mk [("_id", JSValue.str "abc")]).fetch
        (FetchOutcome.success [])).2 = ["collection/" ++ "abc"] :=
  ⟨by decide,
   fetch_request_path (CollectionModel.mk [("_id", JSValue.str "abc")])
     (FetchOutcome.success []) "abc" (by decide)⟩

/-- Claim C4: running the provisioning sequence twice from any state
yields the same machine state as running it once — every step of the
playbook is declarative, and the administrative girder calls all carry
present-state semantics, so the second run changes nothing. -/
theorem provisioning_idempotent (s : MachineState) :
    runPlaybook (runPlaybook s playbookSteps) playbookSteps =
      runPlaybook s playbookSteps := by
  simp [runPlaybook, playbookSteps, girderRoleTasks, postTasks, applyStep,
    applyEnsure, ensurePresent_idem, ensureAllPresent_idem]

/-- Claim C5: the provisioning sequence performs the install of the OS
packages, the pinned git clone of the source tree, the pip install of
`girder-client`, and the three administrative present-state calls (admin
user, assetstore, plugin) in exactly that order, each exactly once. -/
theorem provisioning_step_order :
    List.Sublist
      [PlayStep.aptInstall girderSystemDeps,
       PlayStep.gitClone "https://github.com/girder/girder.git"
         "girder_path" "girder_version",
       PlayStep.pipInstall "girder-client",
       PlayStep.girderUser "girder" "Girder" "Administrator"
         "girder@girder.girder" true EnsureState.present,
       PlayStep.girderAssetstore "Primary assetstore" "filesystem"
         "ansible_user_dir/assetstore" true EnsureState.present,
       PlayStep.girderPlugins ["gravatar"] EnsureState.present]
      playbookSteps
    ∧ ([PlayStep.aptInstall girderSystemDeps,
       PlayStep.gitClone "https://github.com/girder/girder.git"
         "girder_path" "girder_version",
       PlayStep.pipInstall "girder-client",
       PlayStep.girderUser "girder" "Girder" "Administrator"
         "girder@girder.girder" true EnsureState.present,
       PlayStep.girderAssetstore "Primary assetstore" "filesystem"
         "ansible_user_dir/assetstore" true EnsureState.present,
       PlayStep.girderPlugins ["gravatar"] EnsureState.present].all
        fun step => playbookSteps.count step == 1) = true := by
  decide

/-- Claim C6: any two failing fetch outcomes are observationally
identical — same resulting model, same trace, hence the same single
`g:error` event, with no classification of the failure, no retry request
and no message construction. -/
theorem fetch_error_uniform (m : CollectionModel) (e1 e2 : JSValue)
    (_h : e1 ≠ e2) :
    m.fetch (FetchOutcome.failure e1) = m.fetch (FetchOutcome.failure e2)
    ∧ emitsOf (m.fetch (FetchOutcome.failure e1)).2 = ["g:error"] :=
  ⟨rfl, rfl⟩

/-- Claim C6, witness at two distinct concrete failures. -/
theorem fetch_error_uniform_witness :
    JSValue.str "404" ≠ JSValue.str "500"
    ∧ ((CollectionModel.mk []).fetch (FetchOutcome.failure (JSValue.str "404")) =
        (CollectionModel.mk []).fetch (FetchOutcome.failure (JSValue.str "500"))
      ∧ emitsOf ((CollectionModel.mk []).fetch
          (FetchOutcome.failure (JSValue.str "404"))).2 = ["g:error"]) :=
  ⟨by decide,
   fetch_error_uniform (CollectionModel.mk []) (JSValue.str "404")
     (JSValue.str "500") (by decide)⟩

/-- Claim C7: a single fetch invocation issues exactly one request — the
one to the model's fetch path — whether it succeeds or fails; no retry and
no further request appears in the trace. -/
theorem fetch_exactly_one_request (m : CollectionModel) (o : FetchOutcome) :
    requestsOf (m.fetch o).2 = [m.fetchPath] := by
  cases o <;> rfl

/-- Claim C8: the success handler merges the response into the attribute
state: every key absent from the response keeps its prior value. -/
theorem fetch_success_frame (m : CollectionModel) (resp : Attrs) (k : String)
    (h : hasKey resp k = false) :
    attrsGet (m.fetch (FetchOutcome.success resp)).1.attrs k =
      attrsGet m.attrs k :=
  attrsGet_setAll_of_hasKey_false resp m.attrs k h

/-- Claim C8, witness: the `_id` used to build the request path is
preserved when the response does not carry an `_id` field. -/
theorem fetch_success_frame_witness :
    hasKey [("a", JSValue.num 1), ("b", JSValue.num 2)] "_id" = false
    ∧ attrsGet ((CollectionModel.mk [("_id", JSValue.str "123")]).fetch
        (FetchOutcome.success [("a", JSValue.num 1), ("b", JSValue.num 2)])).1.attrs
        "_id" =
      attrsGet (CollectionModel.mk [("_id", JSValue.str "123")]).attrs "_id" :=
  ⟨rfl,
   fetch_success_frame (CollectionModel.mk [("_id", JSValue.str "123")])
     [("a", JSValue.num 1), ("b", JSValue.num 2)] "_id" rfl⟩

/-- Claim C9: each completed fetch triggers exactly one of the two
signals — `g:fetched` on success, `g:error` on failure, never both and
never neither — and any `g:fetched` in the trace comes only after the
response has been written into the attribute state. -/
theorem fetch_one_signal_after_write (m : CollectionModel) (o : FetchOutcome) :
    (emitsOf (m.fetch o).2 = ["g:fetched"] ∨ emitsOf (m.fetch o).2 = ["g:error"])
    ∧ fetchedAfterWrite (m.fetch o).2 false = true := by
  cases o
  · exact ⟨Or.inl rfl, rfl⟩
  · exact ⟨Or.inr rfl, rfl⟩

/-- Claim C10: fetch does not validate the identifier: a model with no
`_id` attribute still issues its one request, with the missing value
coerced to the string `undefined` in the path. -/
theorem fetch_without_id_still_requests (m : CollectionModel) (o : FetchOutcome)
    (h : hasKey m.attrs "_id" = false) :
    requestsOf (m.fetch o).2 = ["collection/undefined"] := by
  have hu : attrsGet m.attrs "_id" = JSValue.undef :=
    attrsGet_eq_undef_of_hasKey_false m.attrs "_id" h
  have hp : m.fetchPath = "collection/undefined" := by
    rw [CollectionModel.fetchPath, hu]
    rfl
  cases o
  · show [m.fetchPath] = _
    rw [hp]
  · show [m.fetchPath] = _
    rw [hp]

/-- Claim C10, witness at a model with no `_id` attribute. -/
theorem fetch_without_id_still_requests_witness :
    hasKey (CollectionModel.mk [("name", JSValue.str "x")]).attrs "_id" = false
    ∧ requestsOf ((CollectionModel.mk [("name", JSValue.str "x")]).fetch
        (FetchOutcome.failure JSValue.undef)).2 = ["collection/undefined"] :=
  ⟨rfl,
   fetch_without_id_still_requests (CollectionModel.mk [("name", JSValue.str "x")])
     (FetchOutcome.failure JSValue.undef) rfl⟩
